import Mathlib

/-!
Shallow embedding of `VertexColorEditor.py` (a Blender add-on editing
per-corner vertex colors), covering:

* the data the operators touch: per-vertex selection flags, faces as lists
  of corner vertex indices, an optional per-corner RGBA color layer;
* `MESH_OT_apply_vertex_color.execute` (Apply);
* `MESH_OT_get_vertex_color.execute` (Get);
* `selection_update_handler` (the auto-pick / live-sync guard);
* the `VertexColorProperties` property group (`vertex_color` with declared
  range `min=0.0, max=1.0`, so the host clamps every assignment to `[0,1]`;
  `auto_pick_color`).

Color channels are modelled as rationals; the guard's epsilon `0.001`
becomes `1/1000`.
-/

namespace VertexColorEditor

/-- An RGBA quadruple, one per face corner (loop) and one held in the UI. -/
structure Color where
  r : ℚ
  g : ℚ
  b : ℚ
  a : ℚ
deriving DecidableEq, Repr

/-- The part of a bmesh the operators read and write: per-vertex `select`
flags (`bm.verts`, in index order), faces as the lists of their corners'
vertex indices (`bm.faces` / `face.loops` / `loop.vert`, in native
enumeration order), and the active corner color layer when one exists
(`bm.loops.layers.color`), shaped like `faces`: one color per corner. -/
structure Mesh where
  verts : List Bool
  faces : List (List Nat)
  layer : Option (List (List Color))
deriving DecidableEq, Repr

/-- `scene.vertex_color_props`: the `VertexColorProperties` group. -/
structure Props where
  vertex_color : Color
  auto_pick_color : Bool
deriving DecidableEq, Repr

/-- The context facts `selection_update_handler` checks before acting:
`context.mode == 'EDIT_MESH'`, `context.active_object` is present, and
`context.active_object.type == 'MESH'`. -/
structure Context where
  mode_is_edit_mesh : Bool
  has_active_object : Bool
  active_object_is_mesh : Bool
deriving DecidableEq, Repr

/-- The two warning outcomes the operators report before returning
`{'CANCELLED'}`: no color layer on the mesh, or no selected vertex. -/
inductive OpError where
  | NoColorData
  | NoSelection
deriving DecidableEq, Repr

/-- Result of `MESH_OT_get_vertex_color.execute`: `{'FINISHED'}` or
`{'CANCELLED'}` with the reported warning. -/
inductive OpResult where
  | finished
  | cancelled (e : OpError)
deriving DecidableEq, Repr

/-- Result of `MESH_OT_apply_vertex_color.execute`: `{'FINISHED'}` carrying
the reported count `len(selected_verts)`, or `{'CANCELLED'}` with the
warning. -/
inductive ApplyOutcome where
  | finished (vertexCount : Nat)
  | cancelled (e : OpError)
deriving DecidableEq, Repr

/-- The host clamps assignments to a `FloatVectorProperty` declared with
`min=0.0, max=1.0` into that range. -/
def clamp01 (x : ℚ) : ℚ := max 0 (min 1 x)

/-- Channel-wise clamping applied when a color is stored into
`props.vertex_color`. -/
def clampColor (c : Color) : Color :=
  ⟨clamp01 c.r, clamp01 c.g, clamp01 c.b, clamp01 c.a⟩

/-- `VertexColorProperties` defaults: `vertex_color` defaults to opaque
white `(1.0, 1.0, 1.0, 1.0)`, `auto_pick_color` to `False`. -/
def defaultProps : Props :=
  { vertex_color := ⟨1, 1, 1, 1⟩, auto_pick_color := false }

/-- `loop.vert.select`: look up the selection flag of a corner's vertex;
an index outside `verts` counts as unselected. -/
def vertSelected (verts : List Bool) (v : Nat) : Bool :=
  verts.getD v false

/-- The fresh layer `bm.loops.layers.color.new("Col")` creates: one entry
per corner, initialized by the host to opaque white. -/
def defaultLayer (faces : List (List Nat)) : List (List Color) :=
  faces.map fun f => f.map fun _ => ⟨1, 1, 1, 1⟩

/-- `if not bm.loops.layers.color: bm.loops.layers.color.new("Col")`:
create the corner color layer when the mesh has none. -/
def ensureLayer (m : Mesh) : Mesh :=
  match m.layer with
  | some _ => m
  | none => { m with layer := some (defaultLayer m.faces) }

/-- Inner loop of Apply on one face: `for loop in face.loops: if
loop.vert.select: loop[color_layer] = color_to_apply`. -/
def writeFace (verts : List Bool) (c : Color) : List Nat → List Color → List Color
  | [], _ => []
  | _ :: _, [] => []
  | v :: vs, col :: cols =>
    (if vertSelected verts v then c else col) :: writeFace verts c vs cols

/-- Outer loop of Apply: `for face in bm.faces: ...` over the layer. -/
def writeLayer (verts : List Bool) (c : Color) :
    List (List Nat) → List (List Color) → List (List Color)
  | [], _ => []
  | _ :: _, [] => []
  | f :: fs, l :: ls => writeFace verts c f l :: writeLayer verts c fs ls

/-- `MESH_OT_apply_vertex_color.execute`: ensure the color layer exists,
collect `selected_verts = [v for v in bm.verts if v.select]`, cancel with
the no-selection warning when it is empty, otherwise write
`props.vertex_color` to every corner of a selected vertex and report
`len(selected_verts)`. -/
def applyExecute (m : Mesh) (props : Props) : Mesh × ApplyOutcome :=
  let m1 := ensureLayer m
  let selected_verts := m1.verts.filter (fun b => b)
  if selected_verts.isEmpty then
    (m1, ApplyOutcome.cancelled OpError.NoSelection)
  else
    let L := m1.layer.getD []
    ({ m1 with layer := some (writeLayer m1.verts props.vertex_color m1.faces L) },
     ApplyOutcome.finished selected_verts.length)

/-- Inner loop of Get on one face: return the first corner's color whose
vertex is selected. -/
def scanLoops (verts : List Bool) : List Nat → List Color → Option Color
  | [], _ => none
  | _ :: _, [] => none
  | v :: vs, col :: cols =>
    if vertSelected verts v then some col else scanLoops verts vs cols

/-- Outer loop of Get: `for face in bm.faces: for loop in face.loops: ...`
with an early `return` at the first selected corner. -/
def scanFaces (verts : List Bool) : List (List Nat) → List (List Color) → Option Color
  | [], _ => none
  | _ :: _, [] => none
  | f :: fs, l :: ls =>
    match scanLoops verts f l with
    | some col => some col
    | none => scanFaces verts fs ls

/-- `MESH_OT_get_vertex_color.execute`: cancel with the no-color-layer
warning when the mesh has no layer; otherwise scan faces then corners and,
at the first corner whose vertex is selected, store its color into
`props.vertex_color` and finish; cancel with the no-selection warning when
the scan falls through. -/
def getExecute (m : Mesh) (props : Props) : Props × OpResult :=
  match m.layer with
  | none => (props, OpResult.cancelled OpError.NoColorData)
  | some L =>
    match scanFaces m.verts m.faces L with
    | some col => ({ props with vertex_color := clampColor col }, OpResult.finished)
    | none => (props, OpResult.cancelled OpError.NoSelection)

/-- The guard's threshold `0.001`. -/
def eps : ℚ := 1 / 1000

/-- The recursion-avoidance test of `selection_update_handler`: some
channel of `props.vertex_color` differs from the corner color by more than
`0.001` in absolute value. -/
def colorDiffers (a b : Color) : Bool :=
  decide (abs (a.r - b.r) > eps) || decide (abs (a.g - b.g) > eps) ||
  decide (abs (a.b - b.b) > eps) || decide (abs (a.a - b.a) > eps)

/-- `selection_update_handler`: return unchanged props unless
`auto_pick_color` is set, the mode is `EDIT_MESH`, an active mesh object
exists, and the mesh has a color layer; then find the first selected
corner's color and overwrite `props.vertex_color` with it only when some
channel differs by more than `0.001`. The handler never touches the mesh. -/
def selection_update_handler (ctx : Context) (m : Mesh) (props : Props) : Props :=
  if !props.auto_pick_color then props
  else if !ctx.mode_is_edit_mesh || !ctx.has_active_object ||
      !ctx.active_object_is_mesh then props
  else
    match m.layer with
    | none => props
    | some L =>
      match scanFaces m.verts m.faces L with
      | none => props
      | some col =>
        if colorDiffers props.vertex_color col then
          { props with vertex_color := clampColor col }
        else props

/-- The corner enumeration the two nested loops traverse: faces in order,
and within each face its corners paired with their layer colors. -/
def cornerPairs : List (List Nat) → List (List Color) → List (Nat × Color)
  | [], _ => []
  | _ :: _, [] => []
  | f :: fs, l :: ls => f.zip l ++ cornerPairs fs ls

/-- Shape invariant the host maintains: the layer has exactly one color
list per face and one color per corner. -/
def layerShaped : List (List Nat) → List (List Color) → Bool
  | [], [] => true
  | [], _ :: _ => false
  | _ :: _, [] => false
  | f :: fs, l :: ls => (f.length == l.length) && layerShaped fs ls

/-- A mesh whose layer, when present, is shaped like its faces. -/
def Mesh.wfLayer (m : Mesh) : Bool :=
  match m.layer with
  | none => true
  | some L => layerShaped m.faces L

/-- Every channel lies in the declared property range `[0.0, 1.0]`. -/
def validColor (c : Color) : Prop :=
  0 ≤ c.r ∧ c.r ≤ 1 ∧ 0 ≤ c.g ∧ c.g ≤ 1 ∧
    0 ≤ c.b ∧ c.b ≤ 1 ∧ 0 ≤ c.a ∧ c.a ≤ 1

instance (c : Color) : Decidable (validColor c) := by
  unfold validColor; infer_instance

/-! ### Basic facts about clamping and the epsilon guard -/

theorem clamp01_nonneg (x : ℚ) : 0 ≤ clamp01 x := le_max_left 0 _

theorem clamp01_le_one (x : ℚ) : clamp01 x ≤ 1 :=
  max_le (by norm_num) (min_le_left 1 x)

theorem validColor_clampColor (c : Color) : validColor (clampColor c) :=
  ⟨clamp01_nonneg _, clamp01_le_one _, clamp01_nonneg _, clamp01_le_one _,
   clamp01_nonneg _, clamp01_le_one _, clamp01_nonneg _, clamp01_le_one _⟩

theorem clamp01_of_mem {x : ℚ} (h0 : 0 ≤ x) (h1 : x ≤ 1) : clamp01 x = x := by
  unfold clamp01
  rw [min_eq_right h1, max_eq_right h0]

theorem clampColor_of_valid {c : Color} (h : validColor c) : clampColor c = c := by
  obtain ⟨h1, h2, h3, h4, h5, h6, h7, h8⟩ := h
  unfold clampColor
  rw [clamp01_of_mem h1 h2, clamp01_of_mem h3 h4, clamp01_of_mem h5 h6,
    clamp01_of_mem h7 h8]

/-! ### The live-sync guard -/

/-- Case analysis of one handler invocation: either it leaves the props
unchanged, or auto-pick is on, the scan found a corner color, and the
props were overwritten with its clamped value. -/
theorem handler_cases (ctx : Context) (m : Mesh) (p : Props) :
    selection_update_handler ctx m p = p ∨
    (p.auto_pick_color = true ∧ ∃ L col, m.layer = some L ∧
      scanFaces m.verts m.faces L = some col ∧
      selection_update_handler ctx m p = { p with vertex_color := clampColor col }) := by
  cases hauto : p.auto_pick_color with
  | false => left; simp [selection_update_handler, hauto]
  | true =>
    cases hm : m.layer with
    | none => left; simp [selection_update_handler, hm]
    | some L =>
      cases hs : scanFaces m.verts m.faces L with
      | none => left; simp [selection_update_handler, hm, hs]
      | some col =>
        cases hmode : ctx.mode_is_edit_mesh with
        | false => left; simp [selection_update_handler, hmode]
        | true =>
          cases hobj : ctx.has_active_object with
          | false => left; simp [selection_update_handler, hobj]
          | true =>
            cases hmesh : ctx.active_object_is_mesh with
            | false => left; simp [selection_update_handler, hmesh]
            | true =>
              cases hd : colorDiffers p.vertex_color col with
              | false =>
                left
                simp [selection_update_handler, hauto, hmode, hobj, hmesh,
                  hm, hs, hd]
              | true =>
                right
                refine ⟨rfl, L, col, rfl, hs, ?_⟩
                simp [selection_update_handler, hauto, hmode, hobj, hmesh,
                  hm, hs, hd]

/-- C1: invoking the live-sync guard twice with the same selection, mesh
colors and context gives the same props as invoking it once: after the
first invocation the stored value already matches the scanned corner, so
every further invocation leaves the Current Color Value unchanged. -/
theorem handler_idempotent (ctx : Context) (m : Mesh) (p : Props) :
    selection_update_handler ctx m (selection_update_handler ctx m p) =
      selection_update_handler ctx m p := by
  rcases handler_cases ctx m p with h | ⟨_, L, col, hm, hs, h⟩
  · rw [h]; exact h
  · rw [h]
    rcases handler_cases ctx m { p with vertex_color := clampColor col } with
      h2 | ⟨_, L2, col2, hm2, hs2, h2⟩
    · exact h2
    · rw [h2]
      rw [hm] at hm2
      injection hm2 with hL
      subst hL
      rw [hs] at hs2
      injection hs2 with hcol
      subst hcol
      rfl

/-- C7: whenever auto-pick is off, the mode is not `EDIT_MESH`, there is
no active object, the active object is not a mesh, or the mesh has no
color layer, the guard returns the props unchanged (and it never touches
the mesh at all: its result type contains no mesh). -/
theorem handler_silent (ctx : Context) (m : Mesh) (p : Props)
    (h : p.auto_pick_color = false ∨ ctx.mode_is_edit_mesh = false ∨
      ctx.has_active_object = false ∨ ctx.active_object_is_mesh = false ∨
      m.layer = none) :
    selection_update_handler ctx m p = p := by
  rcases h with h | h | h | h | h <;> simp [selection_update_handler, h]

/-- Concrete instance discharging the hypothesis of `handler_silent`:
auto-pick is off in the default props, so the guard is a no-op. -/
theorem handler_silent_witness :
    defaultProps.auto_pick_color = false ∧
    selection_update_handler ⟨true, true, true⟩
      (Mesh.mk [true] [[0]] none) defaultProps = defaultProps :=
  ⟨rfl, handler_silent _ _ _ (Or.inl rfl)⟩

/-! ### Selection bookkeeping and the lazily created layer -/

theorem filter_true_isEmpty_false {l : List Bool}
    (h : l.any (fun b => b) = true) :
    (l.filter (fun b => b)).isEmpty = false := by
  obtain ⟨b, hb, hbt⟩ := List.any_eq_true.mp h
  rcases he : (l.filter (fun b => b)).isEmpty with _ | _
  · rfl
  · exfalso
    have := List.isEmpty_iff.mp he
    rw [List.filter_eq_nil_iff] at this
    exact this b hb hbt

theorem filter_true_isEmpty_true {l : List Bool}
    (h : l.any (fun b => b) = false) :
    (l.filter (fun b => b)).isEmpty = true := by
  rw [List.isEmpty_iff, List.filter_eq_nil_iff]
  intro b hb hbt
  exact absurd (List.any_eq_true.mpr ⟨b, hb, hbt⟩) (by rw [h]; simp)

theorem ensureLayer_of_some {m : Mesh} {L : List (List Color)}
    (h : m.layer = some L) : ensureLayer m = m := by
  unfold ensureLayer; rw [h]

theorem ensureLayer_verts (m : Mesh) : (ensureLayer m).verts = m.verts := by
  unfold ensureLayer; cases m.layer <;> rfl

theorem ensureLayer_faces (m : Mesh) : (ensureLayer m).faces = m.faces := by
  unfold ensureLayer; cases m.layer <;> rfl

theorem ensureLayer_layer (m : Mesh) :
    ∃ L, (ensureLayer m).layer = some L := by
  unfold ensureLayer
  cases hm : m.layer with
  | none => exact ⟨defaultLayer m.faces, rfl⟩
  | some L => exact ⟨L, hm⟩

/-! ### What one Apply pass writes, corner by corner -/

/-- Writing one face touches exactly the corners whose vertex is selected:
pairing the face's corner vertices with the written colors is the map that
replaces each selected corner's color with `c` and keeps the rest. -/
theorem zip_writeFace (verts : List Bool) (c : Color) :
    ∀ (f : List Nat) (l : List Color),
      f.zip (writeFace verts c f l) =
        (f.zip l).map
          (fun q => if vertSelected verts q.1 then (q.1, c) else q)
  | [], l => by simp [writeFace]
  | v :: vs, [] => by simp [writeFace]
  | v :: vs, col :: cols => by
    simp only [writeFace, List.zip_cons_cons, List.map_cons,
      zip_writeFace verts c vs cols]
    by_cases h : vertSelected verts v <;> simp [h]

/-- The whole Apply pass over the corner enumeration: selected corners get
exactly `c`, all other corners keep their stored color. -/
theorem cornerPairs_writeLayer (verts : List Bool) (c : Color) :
    ∀ (fs : List (List Nat)) (ls : List (List Color)),
      cornerPairs fs (writeLayer verts c fs ls) =
        (cornerPairs fs ls).map
          (fun q => if vertSelected verts q.1 then (q.1, c) else q)
  | [], ls => by simp [cornerPairs, writeLayer]
  | f :: fs, [] => by simp [cornerPairs, writeLayer]
  | f :: fs, l :: ls => by
    simp only [writeLayer, cornerPairs, List.map_append,
      cornerPairs_writeLayer verts c fs ls, zip_writeFace]

/-- C2: Apply on a mesh with a color layer and a non-empty selection keeps
the vertices and faces, and rewrites the corner enumeration so that every
corner of a selected vertex stores exactly `props.vertex_color` while
every corner of an unselected vertex keeps the color it stored before. -/
theorem apply_completeness (m : Mesh) (p : Props) (L : List (List Color))
    (hL : m.layer = some L) (hsel : m.verts.any (fun b => b) = true) :
    (applyExecute m p).1.verts = m.verts ∧
    (applyExecute m p).1.faces = m.faces ∧
    ∃ L2, (applyExecute m p).1.layer = some L2 ∧
      cornerPairs m.faces L2 =
        (cornerPairs m.faces L).map
          (fun q => if vertSelected m.verts q.1 then (q.1, p.vertex_color)
            else q) := by
  have hne := filter_true_isEmpty_false hsel
  have hres : applyExecute m p =
      ({ m with layer := some (writeLayer m.verts p.vertex_color m.faces L) },
       ApplyOutcome.finished ((m.verts.filter (fun b => b)).length)) := by
    simp only [applyExecute, ensureLayer_of_some hL, hne, Bool.false_eq_true,
      if_false, hL, Option.getD_some]
  rw [hres]
  exact ⟨rfl, rfl, _, rfl, cornerPairs_writeLayer m.verts p.vertex_color m.faces L⟩

/-- Concrete instance of `apply_completeness`: one quad-free mesh of two
faces sharing selected vertex 0, with vertex 1 unselected. -/
theorem apply_completeness_witness :
    (Mesh.mk [true, false] [[0, 1], [0]]
        (some [[⟨0, 0, 0, 0⟩, ⟨0, 0, 0, 0⟩], [⟨0, 0, 0, 0⟩]])).layer =
      some [[⟨0, 0, 0, 0⟩, ⟨0, 0, 0, 0⟩], [⟨0, 0, 0, 0⟩]] ∧
    ([true, false].any (fun b => b) = true) ∧
    (applyExecute (Mesh.mk [true, false] [[0, 1], [0]]
        (some [[⟨0, 0, 0, 0⟩, ⟨0, 0, 0, 0⟩], [⟨0, 0, 0, 0⟩]]))
        defaultProps).1.verts = [true, false] ∧
      (applyExecute (Mesh.mk [true, false] [[0, 1], [0]]
        (some [[⟨0, 0, 0, 0⟩, ⟨0, 0, 0, 0⟩], [⟨0, 0, 0, 0⟩]]))
        defaultProps).1.faces = [[0, 1], [0]] ∧
      ∃ L2, (applyExecute (Mesh.mk [true, false] [[0, 1], [0]]
          (some [[⟨0, 0, 0, 0⟩, ⟨0, 0, 0, 0⟩], [⟨0, 0, 0, 0⟩]]))
          defaultProps).1.layer = some L2 ∧
        cornerPairs [[0, 1], [0]] L2 =
          (cornerPairs [[0, 1], [0]]
              [[⟨0, 0, 0, 0⟩, ⟨0, 0, 0, 0⟩], [⟨0, 0, 0, 0⟩]]).map
            (fun q => if vertSelected [true, false] q.1
              then (q.1, defaultProps.vertex_color) else q) :=
  ⟨rfl, rfl, apply_completeness _ defaultProps _ rfl rfl⟩

/-- C3 as stated is false: Apply creates the color layer before checking
the selection, so a failing Apply on a layerless mesh still mutates the
mesh's attribute-layer state. -/
theorem apply_empty_selection_counterexample :
    (applyExecute (Mesh.mk [] [] none) defaultProps).2 =
      ApplyOutcome.cancelled OpError.NoSelection ∧
    (applyExecute (Mesh.mk [] [] none) defaultProps).1.layer ≠
      (Mesh.mk [] [] none).layer := by
  constructor
  · rfl
  · intro h
    simp [applyExecute, ensureLayer, defaultLayer] at h

/-- C3 amended: on a mesh that already has a color layer, Apply with an
empty selection cancels with the no-selection warning and returns the mesh
completely unchanged; on a layerless mesh the only mutation is the lazily
created layer. -/
theorem apply_empty_selection_no_mutation (m : Mesh) (p : Props)
    (L : List (List Color)) (hL : m.layer = some L)
    (hsel : m.verts.any (fun b => b) = false) :
    applyExecute m p = (m, ApplyOutcome.cancelled OpError.NoSelection) := by
  have he := filter_true_isEmpty_true hsel
  simp [applyExecute, ensureLayer_of_some hL, he]

/-- Concrete instance of `apply_empty_selection_no_mutation`: a one-vertex
mesh, nothing selected, layer present. -/
theorem apply_empty_selection_no_mutation_witness :
    (Mesh.mk [false] [[0]] (some [[⟨0, 0, 0, 0⟩]])).layer =
      some [[⟨0, 0, 0, 0⟩]] ∧
    ([false].any (fun b => b) = false) ∧
    applyExecute (Mesh.mk [false] [[0]] (some [[⟨0, 0, 0, 0⟩]])) defaultProps =
      (Mesh.mk [false] [[0]] (some [[⟨0, 0, 0, 0⟩]]),
       ApplyOutcome.cancelled OpError.NoSelection) :=
  ⟨rfl, rfl, apply_empty_selection_no_mutation _ defaultProps _ rfl rfl⟩

/-- C8: a successful Apply reports `len(selected_verts)`, the number of
selected vertices, regardless of how many corners were written. -/
theorem apply_reports_vertex_count (m : Mesh) (p : Props)
    (hsel : m.verts.any (fun b => b) = true) :
    (applyExecute m p).2 =
      ApplyOutcome.finished ((m.verts.filter (fun b => b)).length) := by
  have hne := filter_true_isEmpty_false hsel
  simp only [applyExecute, ensureLayer_verts, hne, Bool.false_eq_true, if_false]

/-- Concrete instance of `apply_reports_vertex_count`: one selected vertex
shared by two faces; two corners are written yet the report says 1. -/
theorem apply_reports_vertex_count_witness :
    ([true].any (fun b => b) = true) ∧
    (applyExecute (Mesh.mk [true] [[0], [0]]
        (some [[⟨0, 0, 0, 0⟩], [⟨0, 0, 0, 0⟩]])) defaultProps).2 =
      ApplyOutcome.finished 1 ∧
    ((cornerPairs [[0], [0]] [[⟨0, 0, 0, 0⟩], [⟨0, 0, 0, 0⟩]]).filter
        (fun q => vertSelected [true] q.1)).length = 2 :=
  ⟨rfl, apply_reports_vertex_count _ defaultProps rfl, rfl⟩

/-! ### The Get scan is a first-match search over the corner enumeration -/

theorem scanLoops_eq_find (verts : List Bool) :
    ∀ (f : List Nat) (l : List Color),
      scanLoops verts f l =
        ((f.zip l).find? (fun q => vertSelected verts q.1)).map Prod.snd
  | [], l => by simp [scanLoops]
  | v :: vs, [] => by simp [scanLoops]
  | v :: vs, col :: cols => by
    by_cases h : vertSelected verts v
    · simp [scanLoops, h, List.find?_cons_of_pos]
    · simp [scanLoops, h, List.find?_cons_of_neg,
        scanLoops_eq_find verts vs cols]

theorem scanFaces_eq_find (verts : List Bool) :
    ∀ (fs : List (List Nat)) (ls : List (List Color)),
      scanFaces verts fs ls =
        ((cornerPairs fs ls).find? (fun q => vertSelected verts q.1)).map
          Prod.snd
  | [], ls => by simp [scanFaces, cornerPairs]
  | f :: fs, [] => by simp [scanFaces, cornerPairs]
  | f :: fs, l :: ls => by
    simp only [scanFaces, cornerPairs, List.find?_append,
      scanLoops_eq_find verts f l]
    cases hf : (f.zip l).find? (fun q => vertSelected verts q.1) with
    | none => simp [Option.or, scanFaces_eq_find verts fs ls]
    | some q => simp [Option.or]

theorem find_first_of_prefix_false {α : Type} (p : α → Bool) (x : α)
    (rest : List α) :
    ∀ pre : List α, (∀ y ∈ pre, p y = false) → p x = true →
      (pre ++ x :: rest).find? p = some x
  | [], _, hx => by simp [List.find?_cons_of_pos, hx]
  | y :: pre, hpre, hx => by
    have hy : ¬p y = true := by
      rw [hpre y (List.mem_cons_self y pre)]; simp
    rw [List.cons_append, List.find?_cons_of_neg _ hy]
    exact find_first_of_prefix_false p x rest pre
      (fun z hz => hpre z (List.mem_cons_of_mem y hz)) hx

/-- C4: when the mesh's corner enumeration splits as a prefix with no
selected corner followed by a first corner `(v, col)` whose vertex is
selected, Get finishes immediately with exactly `col` — never any later
corner's color and never an aggregate. -/
theorem get_first_selected (m : Mesh) (p : Props) (L : List (List Color))
    (pre rest : List (Nat × Color)) (v : Nat) (col : Color)
    (hL : m.layer = some L)
    (hdec : cornerPairs m.faces L = pre ++ (v, col) :: rest)
    (hpre : ∀ q ∈ pre, vertSelected m.verts q.1 = false)
    (hv : vertSelected m.verts v = true)
    (hcol : validColor col) :
    getExecute m p = ({ p with vertex_color := col }, OpResult.finished) := by
  have hscan : scanFaces m.verts m.faces L = some col := by
    rw [scanFaces_eq_find, hdec,
      find_first_of_prefix_false _ _ _ pre hpre (by simpa using hv)]
    rfl
  simp [getExecute, hL, hscan, clampColor_of_valid hcol]

/-- Concrete instance of `get_first_selected`: two selected vertices with
different colors; Get returns the first corner's color, which differs from
the second one's. -/
theorem get_first_selected_witness :
    (Mesh.mk [true, true] [[0], [1]]
        (some [[⟨0, 0, 0, 1⟩], [⟨1, 1, 1, 1⟩]])).layer =
      some [[⟨0, 0, 0, 1⟩], [⟨1, 1, 1, 1⟩]] ∧
    vertSelected [true, true] 0 = true ∧
    getExecute (Mesh.mk [true, true] [[0], [1]]
        (some [[⟨0, 0, 0, 1⟩], [⟨1, 1, 1, 1⟩]])) defaultProps =
      ({ defaultProps with vertex_color := ⟨0, 0, 0, 1⟩ },
       OpResult.finished) ∧
    (Color.mk 0 0 0 1 ≠ Color.mk 1 1 1 1) :=
  ⟨rfl, rfl,
   get_first_selected _ defaultProps _ [] [(1, ⟨1, 1, 1, 1⟩)] 0 ⟨0, 0, 0, 1⟩
     rfl rfl (by simp) rfl (by norm_num [validColor]),
   by simp [Color.mk.injEq]⟩

/-! ### Get failure cases -/

theorem vertSelected_all_false {verts : List Bool}
    (h : ∀ b ∈ verts, b = false) : ∀ v, vertSelected verts v = false := by
  intro v
  induction verts generalizing v with
  | nil => rfl
  | cons b bs ih =>
    cases v with
    | zero => exact h b (List.mem_cons_self b bs)
    | succ n => exact ih (fun x hx => h x (List.mem_cons_of_mem b hx)) n

theorem scanLoops_of_none_selected {verts : List Bool}
    (h : ∀ v, vertSelected verts v = false) :
    ∀ (f : List Nat) (l : List Color), scanLoops verts f l = none
  | [], _ => rfl
  | _ :: _, [] => rfl
  | v :: vs, col :: cols => by
    simp [scanLoops, h v, scanLoops_of_none_selected h vs cols]

theorem scanFaces_of_none_selected {verts : List Bool}
    (h : ∀ v, vertSelected verts v = false) :
    ∀ (fs : List (List Nat)) (ls : List (List Color)),
      scanFaces verts fs ls = none
  | [], _ => rfl
  | _ :: _, [] => rfl
  | f :: fs, l :: ls => by
    simp [scanFaces, scanLoops_of_none_selected h f l,
      scanFaces_of_none_selected h fs ls]

/-- C6: Get cancels with the no-color-data warning when the mesh has no
layer, cancels with the no-selection warning when a layer exists but no
vertex is selected, leaves the props untouched in every cancelled case,
and so overwrites the Current Color Value only when it finishes. -/
theorem get_failure_modes (m : Mesh) (p : Props) :
    (m.layer = none →
      getExecute m p = (p, OpResult.cancelled OpError.NoColorData)) ∧
    ((∀ b ∈ m.verts, b = false) → m.layer ≠ none →
      getExecute m p = (p, OpResult.cancelled OpError.NoSelection)) ∧
    (∀ e, (getExecute m p).2 = OpResult.cancelled e →
      (getExecute m p).1 = p) := by
  refine ⟨fun h => by simp [getExecute, h], fun hall hne => ?_, fun e => ?_⟩
  · cases hm : m.layer with
    | none => exact absurd hm hne
    | some L =>
      simp [getExecute, hm,
        scanFaces_of_none_selected (vertSelected_all_false hall) m.faces L]
  · cases hm : m.layer with
    | none => intro _; simp [getExecute, hm]
    | some L =>
      cases hs : scanFaces m.verts m.faces L with
      | none => intro _; simp [getExecute, hm, hs]
      | some col => intro hco; simp [getExecute, hm, hs] at hco

/-- Concrete instances discharging both failure hypotheses of
`get_failure_modes`: a layerless mesh cancels with the no-color-data
warning, and an unselected mesh with a layer cancels with the
no-selection warning; the props survive both. -/
theorem get_failure_modes_witness :
    getExecute (Mesh.mk [true] [[0]] none) defaultProps =
      (defaultProps, OpResult.cancelled OpError.NoColorData) ∧
    getExecute (Mesh.mk [false] [[0]] (some [[⟨0, 0, 0, 0⟩]])) defaultProps =
      (defaultProps, OpResult.cancelled OpError.NoSelection) :=
  ⟨(get_failure_modes _ defaultProps).1 rfl,
   (get_failure_modes _ defaultProps).2.1
     (by intro b hb; simpa using hb) (by simp)⟩

/-! ### Shape of the layer and the round trip -/

theorem layerShaped_defaultLayer :
    ∀ fs : List (List Nat), layerShaped fs (defaultLayer fs) = true
  | [] => rfl
  | f :: fs => by
    have ih := layerShaped_defaultLayer fs
    simp only [defaultLayer] at ih ⊢
    rw [List.map_cons]
    simp only [layerShaped, List.length_map, beq_self_eq_true, Bool.true_and]
    exact ih

theorem cornerPairs_map_fst :
    ∀ (fs : List (List Nat)) (ls : List (List Color)),
      layerShaped fs ls = true →
      (cornerPairs fs ls).map Prod.fst = fs.flatten
  | [], [] => fun _ => rfl
  | [], _ :: _ => fun h => by simp [layerShaped] at h
  | _ :: _, [] => fun h => by simp [layerShaped] at h
  | f :: fs, l :: ls => fun h => by
    simp only [layerShaped, Bool.and_eq_true, beq_iff_eq] at h
    obtain ⟨hlen, hrest⟩ := h
    simp only [cornerPairs, List.map_append, List.flatten_cons]
    rw [List.map_fst_zip f l (le_of_eq hlen), cornerPairs_map_fst fs ls hrest]

theorem ensureLayer_shaped {m : Mesh} (hwf : m.wfLayer = true) :
    ∃ L1, (ensureLayer m).layer = some L1 ∧
      layerShaped m.faces L1 = true := by
  unfold ensureLayer
  cases hm : m.layer with
  | none => exact ⟨defaultLayer m.faces, rfl, layerShaped_defaultLayer m.faces⟩
  | some L =>
    have hL : layerShaped m.faces L = true := by
      simpa [Mesh.wfLayer, hm] using hwf
    exact ⟨L, hm, hL⟩

/-- C5 as stated is false: a mesh whose only selected vertex belongs to no
face has a non-empty selection, so Apply succeeds (reporting one vertex),
yet the subsequent Get scans no corner with a selected vertex and cancels
with the no-selection warning instead of returning the applied color. -/
theorem roundtrip_counterexample :
    validColor (Props.mk ⟨1/2, 1/2, 1/2, 1⟩ false).vertex_color ∧
    ([true].any (fun b => b) = true) ∧
    (applyExecute (Mesh.mk [true] [] none)
        (Props.mk ⟨1/2, 1/2, 1/2, 1⟩ false)).2 = ApplyOutcome.finished 1 ∧
    getExecute (applyExecute (Mesh.mk [true] [] none)
        (Props.mk ⟨1/2, 1/2, 1/2, 1⟩ false)).1
        (Props.mk ⟨1/2, 1/2, 1/2, 1⟩ false) =
      (Props.mk ⟨1/2, 1/2, 1/2, 1⟩ false,
       OpResult.cancelled OpError.NoSelection) :=
  ⟨by norm_num [validColor], rfl, rfl, rfl⟩

/-- C5 amended: Apply followed by Get returns exactly the applied color,
provided the selection is non-empty, at least one face corner references a
selected vertex, the color is within the property range, and the layer
(when present) has one color per corner as the host guarantees. -/
theorem apply_get_roundtrip (m : Mesh) (p : Props)
    (hwf : m.wfLayer = true)
    (hsel : m.verts.any (fun b => b) = true)
    (hcorner : m.faces.any
      (fun f => f.any (fun v => vertSelected m.verts v)) = true)
    (hvalid : validColor p.vertex_color) :
    getExecute (applyExecute m p).1 p = (p, OpResult.finished) := by
  obtain ⟨L1, hL1, hsh⟩ := ensureLayer_shaped hwf
  have hne := filter_true_isEmpty_false hsel
  have hres : (applyExecute m p).1 =
      Mesh.mk m.verts m.faces
        (some (writeLayer m.verts p.vertex_color m.faces L1)) := by
    simp only [applyExecute, ensureLayer_verts, ensureLayer_faces, hL1,
      Option.getD_some, hne, Bool.false_eq_true, if_false]
  have hscan : scanFaces m.verts m.faces
      (writeLayer m.verts p.vertex_color m.faces L1) = some p.vertex_color := by
    rw [scanFaces_eq_find, cornerPairs_writeLayer]
    have hPg : (fun q : Nat × Color => vertSelected m.verts q.1) ∘
        (fun q : Nat × Color => if vertSelected m.verts q.1
          then (q.1, p.vertex_color) else q) =
        fun q : Nat × Color => vertSelected m.verts q.1 := by
      funext q
      by_cases h : vertSelected m.verts q.1 <;> simp [h]
    rw [List.find?_map, hPg]
    have hex : ∃ q ∈ cornerPairs m.faces L1,
        vertSelected m.verts q.1 = true := by
      obtain ⟨f, hf, hfany⟩ := List.any_eq_true.mp hcorner
      obtain ⟨v, hvf, hv⟩ := List.any_eq_true.mp hfany
      have hvj : v ∈ m.faces.flatten := List.mem_flatten.mpr ⟨f, hf, hvf⟩
      rw [← cornerPairs_map_fst m.faces L1 hsh] at hvj
      obtain ⟨q, hq, hqv⟩ := List.mem_map.mp hvj
      exact ⟨q, hq, by rw [hqv]; exact hv⟩
    have hsome : ((cornerPairs m.faces L1).find?
        (fun q => vertSelected m.verts q.1)).isSome := by
      rw [List.find?_isSome]
      obtain ⟨q, hq, hqsel⟩ := hex
      exact ⟨q, hq, hqsel⟩
    obtain ⟨q1, hq1⟩ := Option.isSome_iff_exists.mp hsome
    have hq1sel : vertSelected m.verts q1.1 = true := by
      simpa using List.find?_some hq1
    rw [hq1]
    simp [hq1sel]
  rw [hres]
  simp [getExecute, hscan, clampColor_of_valid hvalid]

/-- Concrete instance of `apply_get_roundtrip`: one selected vertex on one
triangle corner, a well-shaped existing layer, a valid color. -/
theorem apply_get_roundtrip_witness :
    (Mesh.mk [true] [[0]] (some [[⟨0, 0, 0, 0⟩]])).wfLayer = true ∧
    ([true].any (fun b => b) = true) ∧
    ([[0]].any (fun f => f.any (fun v => vertSelected [true] v)) = true) ∧
    validColor (Props.mk ⟨1/5, 2/5, 3/5, 1⟩ false).vertex_color ∧
    getExecute (applyExecute (Mesh.mk [true] [[0]] (some [[⟨0, 0, 0, 0⟩]]))
        (Props.mk ⟨1/5, 2/5, 3/5, 1⟩ false)).1
        (Props.mk ⟨1/5, 2/5, 3/5, 1⟩ false) =
      (Props.mk ⟨1/5, 2/5, 3/5, 1⟩ false, OpResult.finished) :=
  ⟨rfl, rfl, rfl, by norm_num [validColor],
   apply_get_roundtrip _ _ rfl rfl rfl (by norm_num [validColor])⟩

/-! ### The color value stays in the declared range -/

/-- C9: the Current Color Value starts at opaque white, and both Get and
the live-sync guard keep every channel within the declared `[0.0, 1.0]`
range (Apply does not write the props at all: its result carries no
props). -/
theorem color_range_invariant (m : Mesh) (ctx : Context) (p : Props)
    (hp : validColor p.vertex_color) :
    validColor defaultProps.vertex_color ∧
    validColor (getExecute m p).1.vertex_color ∧
    validColor (selection_update_handler ctx m p).vertex_color := by
  refine ⟨by norm_num [defaultProps, validColor], ?_, ?_⟩
  · cases hm : m.layer with
    | none => simpa [getExecute, hm] using hp
    | some L =>
      cases hs : scanFaces m.verts m.faces L with
      | none => simpa [getExecute, hm, hs] using hp
      | some col => simpa [getExecute, hm, hs] using validColor_clampColor col
  · rcases handler_cases ctx m p with h | ⟨_, L, col, _, _, h⟩
    · rw [h]; exact hp
    · rw [h]; exact validColor_clampColor col

/-- Concrete instance of `color_range_invariant` at the default props. -/
theorem color_range_invariant_witness :
    validColor defaultProps.vertex_color ∧
    validColor (getExecute (Mesh.mk [] [] none) defaultProps).1.vertex_color ∧
    validColor (selection_update_handler ⟨false, false, false⟩
      (Mesh.mk [] [] none) defaultProps).vertex_color :=
  color_range_invariant _ _ _ (by norm_num [defaultProps, validColor])

/-! ### Apply always leaves a color layer behind -/

/-- C10: after any Apply — successful or cancelled — the mesh has a corner
color layer, because Apply creates it before checking the selection; hence
a Get run on the resulting mesh can never cancel with the no-color-data
warning. -/
theorem apply_creates_layer (m : Mesh) (p p2 : Props) :
    (applyExecute m p).1.layer ≠ none ∧
    (getExecute (applyExecute m p).1 p2).2 ≠
      OpResult.cancelled OpError.NoColorData := by
  obtain ⟨L1, hL1⟩ := ensureLayer_layer m
  have h1 : ∃ L2, (applyExecute m p).1.layer = some L2 := by
    cases hif : ((ensureLayer m).verts.filter (fun b => b)).isEmpty with
    | true => exact ⟨L1, by simp [applyExecute, hif, hL1]⟩
    | false =>
      refine ⟨writeLayer (ensureLayer m).verts p.vertex_color
        (ensureLayer m).faces ((ensureLayer m).layer.getD []), ?_⟩
      simp [applyExecute, hif]
  obtain ⟨L2, hL2⟩ := h1
  refine ⟨by rw [hL2]; simp, ?_⟩
  cases hs : scanFaces (applyExecute m p).1.verts (applyExecute m p).1.faces
      L2 with
  | some col => simp [getExecute, hL2, hs]
  | none => simp [getExecute, hL2, hs]

end VertexColorEditor
